import Mathlib

/-!
Verification of the CANUSB protocol translator (libhal-expander, src/canusb.cpp).

This file gives a shallow embedding of the frame codec
(`string_to_can_message`, `can_message_to_command_buffer`), the adapter
state machine (`driver_baud_rate`, `driver_bus_on`, `driver_send`,
acquisition), and the incremental receive parser
(`process_incoming_serial_data`), and proves properties of them.

Bytes are modelled as `Nat` values in 0..255; machine integers are `Nat`
(the source's `hal::u32` and `std::size_t` never overflow on the paths
modelled, except where noted in comments).  Exception-based error
signalling (`hal::safe_throw`) is modelled with `Except`: an `Except.error`
result means the call threw before performing any transport write or state
mutation, exactly as in the source where every throw precedes the first
side effect of its function.
-/

/-- CAN message value (`hal::can_message`): 32-bit id, extended flag,
remote-request flag, payload length, and 8 payload bytes (modelled as a
list of length 8). -/
structure can_message where
  id : Nat
  extended : Bool
  remote_request : Bool
  length : Nat
  payload : List Nat
deriving DecidableEq

/-- Hex-digit test of `std::from_chars` with base 16: ASCII `0`-`9`,
`A`-`F`, `a`-`f`. -/
def is_hex_digit (c : Nat) : Bool :=
  (48 ≤ c && c ≤ 57) || (65 ≤ c && c ≤ 70) || (97 ≤ c && c ≤ 102)

/-- Numeric value of a hex digit (meaningful only when `is_hex_digit`). -/
def hex_val (c : Nat) : Nat :=
  if c ≤ 57 then c - 48 else if c ≤ 70 then c - 55 else c - 87

/-- The accumulating scan of `std::from_chars`: consume the maximal run of
hex digits at the front of the field, left to right. -/
def parse_hex_run : List Nat → Nat → Nat
  | [], acc => acc
  | c :: rest, acc =>
    if is_hex_digit c then parse_hex_run rest (acc * 16 + hex_val c) else acc

/-- `std::from_chars(first, last, value, 16)` over the byte field
`[first, last)`: fails (`std::errc::invalid_argument`) only when the field
is empty or starts with a non-hex character; otherwise yields the value of
the maximal hex-digit run at the front.  The fields parsed by the decoder
(at most 8 hex digits into `u32`, 2 into `u8`) can never overflow, so
`std::errc::result_out_of_range` is unreachable and not modelled. -/
def from_chars_hex (field : List Nat) : Option Nat :=
  match field with
  | [] => none
  | c :: _ => if is_hex_digit c then some (parse_hex_run field 0) else none

/-- The payload loop of `string_to_can_message`: for each of
`payload_length` payload bytes, `from_chars` over the 2-character window at
offset `2*i`. -/
def parse_payload : Nat → List Nat → Option (List Nat)
  | 0, _ => some []
  | n + 1, chars =>
    match chars with
    | c1 :: c2 :: rest =>
      match from_chars_hex [c1, c2] with
      | none => none
      | some v => (parse_payload n rest).map (fun l => v :: l)
    | _ => none

/-- Common tail of `string_to_can_message` after the command byte selected
the format (`format_size`, `id_byte_length`, extended flag).  Mirrors the
source line by line: size check, remote flag from the command byte, skip
the command byte, `from_chars` over the fixed-width ID window, the length
digit (the source computes `std::size_t payload_length = chars[0] - '0'`
with a signed `char`, so every byte outside ASCII `0`..`8` yields a value
above 8 by wraparound and is rejected; modelled as the equivalent bound
check), the exact remaining-size check `2*length + 1`, and the payload
loop.  The trailing byte is counted but its content never inspected. -/
def decode_format (format_size id_byte_length : Nat) (ext : Bool)
    (p_command : List Nat) : Option can_message :=
  if p_command.length < format_size then none
  else
    let command := p_command.headD 0
    let remote := command = 114 ∨ command = 82
    let chars := p_command.drop 1
    match from_chars_hex (chars.take id_byte_length) with
    | none => none
    | some id =>
      match chars.drop id_byte_length with
      | [] => none
      | len_char :: rest =>
        if len_char < 48 ∨ 56 < len_char then none
        else
          let payload_length := len_char - 48
          if rest.length ≠ 2 * payload_length + 1 then none
          else
            match parse_payload payload_length rest with
            | none => none
            | some data =>
              some { id := id, extended := ext, remote_request := decide remote,
                     length := payload_length,
                     payload := data ++ List.replicate (8 - payload_length) 0 }

/-- `string_to_can_message`: parse one CANUSB protocol frame.  A leading
`r`(114)/`t`(116) selects the standard format `tiiil\r` (size 6, 3 ID
digits), `R`(82)/`T`(84) the extended format `Tiiiiiiiil\r` (size 11, 8 ID
digits); anything else, or an empty input, fails. -/
def string_to_can_message (p_command : List Nat) : Option can_message :=
  match p_command with
  | [] => none
  | command :: tail =>
    if command = 114 ∨ command = 116 then
      decode_format 6 3 false (command :: tail)
    else if command = 82 ∨ command = 84 then
      decode_format 11 8 true (command :: tail)
    else none

/-- Upper-case hex digit character for a value below 16 (`%X` of
`snprintf`). -/
def hex_digit_char (n : Nat) : Nat :=
  if n < 10 then 48 + n else 55 + n

/-- Big-endian upper-case hex digits of `n`, fuelled structural recursion;
fuel 9 is exact for every `u32` value. -/
def hex_digits_aux : Nat → Nat → List Nat
  | 0, _ => []
  | fuel + 1, n =>
    if n < 16 then [hex_digit_char n]
    else hex_digits_aux fuel (n / 16) ++ [hex_digit_char (n % 16)]

/-- Upper-case hex representation of a `u32` value, no padding. -/
def hex_digits (n : Nat) : List Nat :=
  hex_digits_aux 9 n

/-- `snprintf` with format `%0wX`: the hex representation zero-padded on
the left to at least `w` digits. -/
def hex_pad (w n : Nat) : List Nat :=
  List.replicate (w - (hex_digits n).length) 48 ++ hex_digits n

/-- `canusb_command_buffer::push_back`: append one byte unless the 28-byte
buffer is full (then the byte is silently dropped). -/
def push_back (buf : List Nat) (b : Nat) : List Nat :=
  if buf.length < 28 then buf ++ [b] else buf

/-- `canusb_command_buffer::append`: push every byte of the span. -/
def buffer_append (buf : List Nat) (s : List Nat) : List Nat :=
  s.foldl push_back buf

/-- `can_message_to_command_buffer`: encode a CAN message as a CANUSB
command frame.

Extended path: the source formats the ID with `snprintf("%08X")` into a
9-byte array and then appends the whole 9-element array -- 8 hex digits
plus the `snprintf` NUL terminator -- so a stray 0 byte lands between the
ID field and the length digit.  (Contrast the standard path, which appends
`first(3)` of its 4-byte array, and the payload path, which appends
`first(2)`; the buffer-size comment in the source also budgets 8 bytes,
not 9, for the extended ID.)  Modelled faithfully, NUL included.

Standard path: `snprintf("%03X")` into a 4-byte array truncates to 3
characters plus NUL when the ID needs more than 3 digits, and `first(3)`
then keeps the 3 most significant digits; modelled as `take 3` of the
padded representation. -/
def can_message_to_command_buffer (p_message : can_message) : List Nat :=
  let buf : List Nat := []
  let buf :=
    if p_message.extended then
      let buf := push_back buf (if p_message.remote_request then 82 else 84)
      buffer_append buf (hex_pad 8 p_message.id ++ [0])
    else
      let buf := push_back buf (if p_message.remote_request then 114 else 116)
      buffer_append buf ((hex_pad 3 p_message.id).take 3)
  let buf := push_back buf (48 + p_message.length)
  let buf :=
    if p_message.remote_request then buf
    else
      (p_message.payload.take p_message.length).foldl
        (fun b pb => buffer_append b ((hex_pad 2 pb).take 2)) buf
  push_back buf 13

/-- `baud_rate_to_command_char`: the fixed baud-rate table; 0 models the
`'\0'` "unsupported" sentinel. -/
def baud_rate_to_command_char (p_baud_rate : Nat) : Nat :=
  if p_baud_rate = 10000 then 48
  else if p_baud_rate = 20000 then 49
  else if p_baud_rate = 50000 then 50
  else if p_baud_rate = 100000 then 51
  else if p_baud_rate = 125000 then 52
  else if p_baud_rate = 250000 then 53
  else if p_baud_rate = 500000 then 54
  else if p_baud_rate = 800000 then 55
  else if p_baud_rate = 1000000 then 56
  else 0

/-- The closed set of supported baud rates (domain of the table above). -/
def supported_rates : List Nat :=
  [10000, 20000, 50000, 100000, 125000, 250000, 500000, 800000, 1000000]

/-- The error conditions thrown by the driver (`hal::safe_throw`). -/
inductive hal_error where
  | device_or_resource_busy
  | operation_not_permitted
  | operation_not_supported
deriving DecidableEq

/-- Shared adapter state of the `canusb` root object, with the member
initialisers from the header (closed bus, 125 kHz, nothing acquired). -/
structure canusb_state where
  m_bus_manager_acquired : Bool := false
  m_transceiver_acquired : Bool := false
  m_is_open : Bool := false
  m_current_baud_rate : Nat := 125000
deriving DecidableEq

/-- `canusb_bus_manager::driver_baud_rate`: throws operation-not-permitted
while the bus is open, operation-not-supported for a rate outside the
table; otherwise writes `S`, the table character, `\r` to the serial
transport and records the new rate.  An `Except.error` result carries no
state and no written bytes: the source throws before any side effect. -/
def driver_baud_rate (s : canusb_state) (p_hertz : Nat) :
    Except hal_error (canusb_state × List Nat) :=
  if s.m_is_open then Except.error hal_error.operation_not_permitted
  else
    let command_char := baud_rate_to_command_char p_hertz
    if command_char = 0 then Except.error hal_error.operation_not_supported
    else
      Except.ok ({ s with m_current_baud_rate := p_hertz },
        [83, command_char, 13])

/-- `canusb_bus_manager::driver_bus_on`: returns immediately when the bus
is already open; otherwise writes `O`, `\r` and marks the bus open.  The
result pairs the new state with the bytes written. -/
def driver_bus_on (s : canusb_state) : canusb_state × List Nat :=
  if s.m_is_open then (s, [])
  else ({ s with m_is_open := true }, [79, 13])

/-- `canusb_transceiver::driver_send`: throws operation-not-supported while
the bus is closed, otherwise writes the encoded frame in one transport
write (the returned byte list). -/
def driver_send (s : canusb_state) (p_message : can_message) :
    Except hal_error (List Nat) :=
  if s.m_is_open = false then Except.error hal_error.operation_not_supported
  else Except.ok (can_message_to_command_buffer p_message)

/-- `acquire_can_bus_manager`: throws device-or-resource-busy when already
acquired (no side effect), otherwise sets the acquired flag. -/
def acquire_can_bus_manager (s : canusb_state) :
    Except hal_error canusb_state :=
  if s.m_bus_manager_acquired then
    Except.error hal_error.device_or_resource_busy
  else Except.ok { s with m_bus_manager_acquired := true }

/-- `acquire_can_transceiver`: throws device-or-resource-busy when already
acquired (no side effect), otherwise sets the acquired flag. -/
def acquire_can_transceiver (s : canusb_state) :
    Except hal_error canusb_state :=
  if s.m_transceiver_acquired then
    Except.error hal_error.device_or_resource_busy
  else Except.ok { s with m_transceiver_acquired := true }

/-- Modelled from the spec: `hal::v5::circular_buffer` is external to this
repository (libhal).  Per the spec, `push` overwrites the slot at the
current write index and advances the write index modulo the capacity
(`data.length`, at least 1). -/
structure circular_buffer where
  data : List can_message
  write_index : Nat
deriving DecidableEq

/-- Modelled from the spec: overwrite the slot at the write index and
advance the cursor modulo capacity. -/
def circular_buffer.push (b : circular_buffer) (m : can_message) :
    circular_buffer :=
  { data := b.data.set b.write_index m,
    write_index := (b.write_index + 1) % b.data.length }

/-- Per-invocation state of `canusb_transceiver`.  `m_parse_buffer` models
the first `m_parse_buffer_pos` bytes of the source's 32-byte assembly
array (bytes past the fill are never read). -/
structure canusb_transceiver_state where
  m_last_serial_cursor : Nat
  m_parse_buffer : List Nat
  m_circular_buffer : circular_buffer
deriving DecidableEq

/-- One iteration of the byte loop of `process_incoming_serial_data`:
append the byte to the assembly buffer unless the fill has reached
capacity minus one (31), and on a carriage return attempt a decode of the
accumulated bytes, push a successful result into the ring, drop a failure
silently, and reset the fill to zero either way. -/
def process_byte (st : canusb_transceiver_state) (new_byte : Nat) :
    canusb_transceiver_state :=
  let buf :=
    if st.m_parse_buffer.length < 31 then st.m_parse_buffer ++ [new_byte]
    else st.m_parse_buffer
  if new_byte = 13 then
    let ring :=
      match string_to_can_message buf with
      | some m => st.m_circular_buffer.push m
      | none => st.m_circular_buffer
    { st with m_parse_buffer := [], m_circular_buffer := ring }
  else
    { st with m_parse_buffer := buf }

/-- The new-byte count of `process_incoming_serial_data`:
`(current_cursor + buffer_size - m_last_serial_cursor) % buffer_size`. -/
def bytes_received (buffer_size last current : Nat) : Nat :=
  (current + buffer_size - last) % buffer_size

/-- The ring indices visited by the byte loop, in order:
`(m_last_serial_cursor + i) % buffer_size` for `i` below the count. -/
def new_byte_indices (buffer_size last n : Nat) : List Nat :=
  (List.range n).map (fun i => (last + i) % buffer_size)

/-- `canusb_transceiver::process_incoming_serial_data`: one parser pass
over the transport receive ring (`serial_buffer`, its current write cursor
`current_cursor`).  Computes the wraparound delta; when zero, returns at
once without reading any ring byte; otherwise runs the byte loop over the
delta-many ring indices and finally records the transport cursor. -/
def process_incoming_serial_data (serial_buffer : List Nat)
    (current_cursor : Nat) (st : canusb_transceiver_state) :
    canusb_transceiver_state :=
  let n := bytes_received serial_buffer.length st.m_last_serial_cursor
    current_cursor
  if n = 0 then st
  else
    let st' :=
      (new_byte_indices serial_buffer.length st.m_last_serial_cursor n).foldl
        (fun s idx => process_byte s (serial_buffer.getD idx 0)) st
    { st' with m_last_serial_cursor := current_cursor }

/-- Rejection when the input is shorter than the selected format size. -/
theorem decode_format_short (format_size id_byte_length : Nat) (e : Bool)
    (p : List Nat) (h : p.length < format_size) :
    decode_format format_size id_byte_length e p = none := by
  simp [decode_format, h]

/-- Rejection when the first character of the ID field is not a hex digit:
`from_chars` signals `invalid_argument`. -/
theorem decode_format_id_start_not_hex (il : Nat) (e : Bool) (p : List Nat)
    (hil : 0 < il) (h : is_hex_digit (p.getD 1 0) = false) :
    decode_format (il + 3) il e p = none := by
  by_cases hlen : p.length < il + 3
  · exact decode_format_short _ _ _ _ hlen
  · rcases p with _ | ⟨a, _ | ⟨b, t⟩⟩
    · simp at hlen
    · simp at hlen
    · have hb : is_hex_digit b = false := by simpa using h
      obtain ⟨k, rfl⟩ : ∃ k, il = k + 1 := ⟨il - 1, by omega⟩
      simp [decode_format, hlen, from_chars_hex, hb]

/-- Rejection when the length digit is outside ASCII `0`..`8`. -/
theorem decode_format_bad_length_digit (il : Nat) (e : Bool) (p : List Nat)
    (hlen : il + 3 ≤ p.length)
    (h : p.getD (il + 1) 0 < 48 ∨ 56 < p.getD (il + 1) 0) :
    decode_format (il + 3) il e p = none := by
  have hlt : il + 1 < p.length := by omega
  have hnotshort : ¬ p.length < il + 3 := by omega
  have hd : List.drop (il + 1) p = p.getD (il + 1) 0 :: List.drop (il + 2) p := by
    rw [List.getD_eq_getElem p 0 hlt]
    exact List.drop_eq_getElem_cons hlt
  have h' : p[il + 1]?.getD 0 < 48 ∨ 56 < p[il + 1]?.getD 0 := by
    simpa [List.getD_eq_getElem?_getD] using h
  rcases hfc : from_chars_hex (List.take il p.tail) with _ | id
  · simp [decode_format, hnotshort, hfc]
  · simp [decode_format, hnotshort, hfc, hd]
    intro h1 h2
    exfalso
    omega

/-- The payload loop fails as soon as some pair starts with a non-hex
character. -/
theorem parse_payload_none (L : Nat) (chars : List Nat) (i : Nat)
    (hlen : chars.length = 2 * L + 1) (hi : i < L)
    (h : is_hex_digit (chars.getD (2 * i) 0) = false) :
    parse_payload L chars = none := by
  induction L generalizing chars i with
  | zero => omega
  | succ L ih =>
    rcases chars with _ | ⟨c1, _ | ⟨c2, rest⟩⟩
    · simp at hlen
    · simp at hlen
    · cases i with
      | zero =>
        have hc1 : is_hex_digit c1 = false := by simpa using h
        simp [parse_payload, from_chars_hex, hc1]
      | succ i' =>
        rcases hfc : from_chars_hex [c1, c2] with _ | v
        · simp [parse_payload, hfc]
        · have hrest : parse_payload L rest = none := by
            refine ih rest i' ?_ (by omega) ?_
            · simp at hlen; omega
            · have h2 : (2 * (i' + 1)) = (2 * i') + 1 + 1 := by omega
              rw [h2] at h
              simpa using h
          simp [parse_payload, hfc, hrest]

/-- Rejection when payload pair `i` starts with a non-hex character (all
earlier checks either fail, also rejecting, or pass and the payload loop
fails). -/
theorem decode_format_bad_payload_digit (il : Nat) (e : Bool) (p : List Nat)
    (L i : Nat) (hL : L ≤ 8) (hi : i < L)
    (hd : p.getD (il + 1) 0 = 48 + L)
    (h : is_hex_digit (p.getD (il + 2 + 2 * i) 0) = false) :
    decode_format (il + 3) il e p = none := by
  by_cases hshort : p.length < il + 3
  · exact decode_format_short _ _ _ _ hshort
  rcases hfc : from_chars_hex (List.take il p.tail) with _ | id
  · simp [decode_format, hshort, hfc]
  have hlt : il + 1 < p.length := by omega
  have hcons : List.drop (il + 1) p = (48 + L) :: List.drop (il + 2) p := by
    rw [← hd, List.getD_eq_getElem p 0 hlt]
    exact List.drop_eq_getElem_cons hlt
  have hbound : ¬ ((48 + L : Nat) < 48 ∨ 56 < (48 + L : Nat)) := by omega
  have hL56 : (48 + L : Nat) ≤ 56 := by omega
  have hsub : 48 + L - 48 = L := by omega
  by_cases hrem : p.length - (il + 2) = 2 * L + 1
  · have hget : (List.drop (il + 2) p).getD (2 * i) 0 =
        p.getD (il + 2 + 2 * i) 0 := by
      simp [List.getD_eq_getElem?_getD, List.getElem?_drop]
    have hpp : parse_payload L (List.drop (il + 2) p) = none :=
      parse_payload_none L _ i (by simpa using hrem) hi (by rw [hget]; exact h)
    simp [decode_format, hshort, hfc, hcons, hbound, hL56, hsub, hrem, hpp]
  · simp [decode_format, hshort, hfc, hcons, hbound, hL56, hsub, hrem]

/-- A leading `r`/`t` byte dispatches to the standard format. -/
theorem string_to_can_message_std (c : Nat) (t : List Nat)
    (hc : c = 114 ∨ c = 116) :
    string_to_can_message (c :: t) = decode_format 6 3 false (c :: t) := by
  rcases hc with h | h <;> subst h <;> simp [string_to_can_message]

/-- A leading `R`/`T` byte dispatches to the extended format. -/
theorem string_to_can_message_ext (c : Nat) (t : List Nat)
    (hc : c = 82 ∨ c = 84) :
    string_to_can_message (c :: t) = decode_format 11 8 true (c :: t) := by
  rcases hc with h | h <;> subst h <;> simp [string_to_can_message]

/-- Claim C2 (amended): the decoder rejects every byte slice shorter than
the minimum format length of its selected variant, every slice whose
length digit does not encode a value in 0..8, and every slice whose ID
field or payload hex pair STARTS with a non-hex character.  (The original
claim said any non-hex character anywhere in those fields is rejected;
that fails -- see the counterexample -- because `std::from_chars` accepts
a maximal hex-digit run and the source never checks the run filled the
field.) -/
theorem claim_C2_amended (p : List Nat) :
    (p.length < 6 → string_to_can_message p = none) ∧
    ((p.headD 0 = 82 ∨ p.headD 0 = 84) → p.length < 11 →
        string_to_can_message p = none) ∧
    ((p.headD 0 = 114 ∨ p.headD 0 = 116) → is_hex_digit (p.getD 1 0) = false →
        string_to_can_message p = none) ∧
    ((p.headD 0 = 82 ∨ p.headD 0 = 84) → is_hex_digit (p.getD 1 0) = false →
        string_to_can_message p = none) ∧
    ((p.headD 0 = 114 ∨ p.headD 0 = 116) → 6 ≤ p.length →
        (p.getD 4 0 < 48 ∨ 56 < p.getD 4 0) →
        string_to_can_message p = none) ∧
    ((p.headD 0 = 82 ∨ p.headD 0 = 84) → 11 ≤ p.length →
        (p.getD 9 0 < 48 ∨ 56 < p.getD 9 0) →
        string_to_can_message p = none) ∧
    (∀ L i, (p.headD 0 = 114 ∨ p.headD 0 = 116) → p.getD 4 0 = 48 + L →
        L ≤ 8 → i < L → is_hex_digit (p.getD (5 + 2 * i) 0) = false →
        string_to_can_message p = none) ∧
    (∀ L i, (p.headD 0 = 82 ∨ p.headD 0 = 84) → p.getD 9 0 = 48 + L →
        L ≤ 8 → i < L → is_hex_digit (p.getD (10 + 2 * i) 0) = false →
        string_to_can_message p = none) := by
  refine ⟨?_, ?_, ?_, ?_, ?_, ?_, ?_, ?_⟩
  · intro hlen
    rcases p with _ | ⟨c, t⟩
    · rfl
    · by_cases h1 : c = 114 ∨ c = 116
      · rw [string_to_can_message_std c t h1]
        exact decode_format_short _ _ _ _ hlen
      · by_cases h2 : c = 82 ∨ c = 84
        · rw [string_to_can_message_ext c t h2]
          exact decode_format_short _ _ _ _ (by omega)
        · simp [string_to_can_message, h1, h2]
  · intro hc hlen
    rcases p with _ | ⟨c, t⟩
    · rfl
    · rw [string_to_can_message_ext c t (by simpa using hc)]
      exact decode_format_short _ _ _ _ hlen
  · intro hc hhex
    rcases p with _ | ⟨c, t⟩
    · rfl
    · rw [string_to_can_message_std c t (by simpa using hc)]
      exact decode_format_id_start_not_hex 3 false _ (by omega) hhex
  · intro hc hhex
    rcases p with _ | ⟨c, t⟩
    · rfl
    · rw [string_to_can_message_ext c t (by simpa using hc)]
      exact decode_format_id_start_not_hex 8 true _ (by omega) hhex
  · intro hc hlen hbad
    rcases p with _ | ⟨c, t⟩
    · rfl
    · rw [string_to_can_message_std c t (by simpa using hc)]
      exact decode_format_bad_length_digit 3 false _ hlen hbad
  · intro hc hlen hbad
    rcases p with _ | ⟨c, t⟩
    · rfl
    · rw [string_to_can_message_ext c t (by simpa using hc)]
      exact decode_format_bad_length_digit 8 true _ hlen hbad
  · intro L i hc hd hL hi hhex
    rcases p with _ | ⟨c, t⟩
    · rfl
    · rw [string_to_can_message_std c t (by simpa using hc)]
      exact decode_format_bad_payload_digit 3 false _ L i hL hi hd hhex
  · intro L i hc hd hL hi hhex
    rcases p with _ | ⟨c, t⟩
    · rfl
    · rw [string_to_can_message_ext c t (by simpa using hc)]
      exact decode_format_bad_payload_digit 8 true _ L i hL hi hd hhex

/-- Claim C2 counterexample: the input `t1G30CR` has the non-hex byte `G`
(71) inside its ID field, yet the decoder ACCEPTS the frame with id 1:
`std::from_chars` consumes only the maximal hex run and the source never
checks that the whole fixed-width ID field was consumed, so the claim
"a non-hex character anywhere in the ID field yields failure" is false. -/
theorem claim_C2_counterexample :
    is_hex_digit 71 = false ∧
    string_to_can_message [116, 49, 71, 51, 48, 13] =
      some ⟨1, false, false, 0, List.replicate 8 0⟩ := by
  decide

/-- Claim C2 (amended) witness: concrete rejected inputs — a 3-byte
truncated frame, a standard frame whose ID field starts with `G`, a
standard frame with length digit `9`, and a standard frame whose payload
pair starts with `G`. -/
theorem claim_C2_amended_witness :
    string_to_can_message [116, 48, 48] = none ∧
    string_to_can_message [116, 71, 48, 48, 48, 13] = none ∧
    string_to_can_message [116, 48, 48, 48, 57, 13] = none ∧
    string_to_can_message [116, 48, 48, 48, 49, 71, 65, 13] = none := by
  refine ⟨?_, ?_, ?_, ?_⟩
  · exact (claim_C2_amended [116, 48, 48]).1 (by decide)
  · exact (claim_C2_amended [116, 71, 48, 48, 48, 13]).2.2.1 (by decide)
      (by decide)
  · exact (claim_C2_amended [116, 48, 48, 48, 57, 13]).2.2.2.2.1 (by decide)
      (by decide) (by decide)
  · exact (claim_C2_amended [116, 48, 48, 48, 49, 71, 65, 13]).2.2.2.2.2.2.1
      1 0 (by decide) (by decide) (by decide) (by decide) (by decide)

/-- Claim C10: the decoder does not enforce the 11-bit standard-ID range:
the well-formed standard frame `tFFF0CR` decodes successfully to a message
with extended = false and id 0xFFF = 4095, which exceeds 0x7FF = 2047. -/
theorem claim_C10 :
    string_to_can_message [116, 70, 70, 70, 48, 13] =
      some ⟨4095, false, false, 0, List.replicate 8 0⟩ ∧
    2047 < (4095 : Nat) := by
  decide

/-- Claim C1 (code-bug evaluation): the encode-decode round trip fails on
the code.  For the structurally valid extended data message with id 0 and
length 0, the encoder appends the whole 9-byte `snprintf` ID buffer -- 8
hex digits plus the NUL terminator (the 0 byte in the first conjunct) --
and the decoder then reads that NUL as the length digit and rejects the
frame, so decode(encode(m)) is `none`, not `m` (second conjunct); every
extended message fails the same way.  Remote frames with nonzero length
also fail to round trip (third conjunct): the encoder emits no payload
digits for them but the decoder still demands `2*length` payload
characters.  A standard data frame does round trip (fourth conjunct),
showing the two failures are specific to the extended/remote paths. -/
theorem claim_C1_code_divergence :
    can_message_to_command_buffer ⟨0, true, false, 0, List.replicate 8 0⟩ =
      [84, 48, 48, 48, 48, 48, 48, 48, 48, 0, 48, 13] ∧
    string_to_can_message
      (can_message_to_command_buffer ⟨0, true, false, 0, List.replicate 8 0⟩) =
      none ∧
    string_to_can_message
      (can_message_to_command_buffer ⟨0, false, true, 1, List.replicate 8 0⟩) =
      none ∧
    string_to_can_message
      (can_message_to_command_buffer
        ⟨1, false, false, 1, 171 :: List.replicate 7 0⟩) =
      some ⟨1, false, false, 1, 171 :: List.replicate 7 0⟩ := by
  decide

/-- The baud-rate table yields the NUL sentinel exactly for rates outside
the supported set. -/
theorem baud_rate_to_command_char_eq_zero (hz : Nat) :
    baud_rate_to_command_char hz = 0 ↔ hz ∉ supported_rates := by
  unfold baud_rate_to_command_char supported_rates
  split_ifs <;> simp_all

/-- Claim C3: `driver_baud_rate` state gating and atomicity.  While the
bus is open it fails with operation-not-permitted; while closed, a rate
outside the fixed table fails with operation-not-supported; both failures
throw before any serial write or state mutation (the error result carries
neither).  While closed, a supported rate writes exactly `S`, the table
character, `\r` and records the rate; in particular 500000 writes
`[83, 54, 13]` (ASCII `S6\r`). -/
theorem claim_C3 (s : canusb_state) (hz : Nat) :
    (s.m_is_open = true →
        driver_baud_rate s hz =
          Except.error hal_error.operation_not_permitted) ∧
    (s.m_is_open = false → hz ∉ supported_rates →
        driver_baud_rate s hz =
          Except.error hal_error.operation_not_supported) ∧
    (s.m_is_open = false → hz ∈ supported_rates →
        driver_baud_rate s hz =
          Except.ok ({ s with m_current_baud_rate := hz },
            [83, baud_rate_to_command_char hz, 13])) ∧
    (s.m_is_open = false →
        driver_baud_rate s 500000 =
          Except.ok ({ s with m_current_baud_rate := 500000 },
            [83, 54, 13])) := by
  refine ⟨?_, ?_, ?_, ?_⟩
  · intro h
    simp [driver_baud_rate, h]
  · intro h hmem
    have hc := (baud_rate_to_command_char_eq_zero hz).mpr hmem
    simp [driver_baud_rate, h, hc]
  · intro h hmem
    have hc : baud_rate_to_command_char hz ≠ 0 := by
      rw [Ne, baud_rate_to_command_char_eq_zero]
      simpa using hmem
    simp [driver_baud_rate, h, hc]
  · intro h
    have hc : baud_rate_to_command_char 500000 = 54 := by decide
    simp [driver_baud_rate, h, hc]

/-- Claim C3 witness: from the closed initial state, 500 kHz succeeds
writing `S6\r`; 300 kHz (not in the table) fails unsupported; after
opening the bus the same call fails not-permitted. -/
theorem claim_C3_witness :
    driver_baud_rate ⟨false, false, false, 125000⟩ 500000 =
      Except.ok (⟨false, false, false, 500000⟩, [83, 54, 13]) ∧
    driver_baud_rate ⟨false, false, false, 125000⟩ 300000 =
      Except.error hal_error.operation_not_supported ∧
    driver_baud_rate ⟨false, false, true, 125000⟩ 500000 =
      Except.error hal_error.operation_not_permitted :=
  ⟨(claim_C3 ⟨false, false, false, 125000⟩ 500000).2.2.2 rfl,
   (claim_C3 ⟨false, false, false, 125000⟩ 300000).2.1 rfl (by decide),
   (claim_C3 ⟨false, false, true, 125000⟩ 500000).1 rfl⟩

/-- Claim C9: the open-bus check precedes the rate-table lookup.  With the
bus open AND an unsupported rate, `driver_baud_rate` signals
operation-not-permitted, not operation-not-supported. -/
theorem claim_C9 (s : canusb_state) (hz : Nat) (ho : s.m_is_open = true)
    (_hu : baud_rate_to_command_char hz = 0) :
    driver_baud_rate s hz =
      Except.error hal_error.operation_not_permitted ∧
    driver_baud_rate s hz ≠
      Except.error hal_error.operation_not_supported := by
  constructor
  · simp [driver_baud_rate, ho]
  · simp [driver_baud_rate, ho]

/-- Claim C9 witness: bus open, rate 300000 outside the table. -/
theorem claim_C9_witness :
    driver_baud_rate ⟨false, false, true, 125000⟩ 300000 =
      Except.error hal_error.operation_not_permitted ∧
    driver_baud_rate ⟨false, false, true, 125000⟩ 300000 ≠
      Except.error hal_error.operation_not_supported :=
  claim_C9 ⟨false, false, true, 125000⟩ 300000 rfl (by decide)

/-- Claim C4: acquisition exclusivity.  A first acquisition of either
facet flips its flag false-to-true; a second signals
device-or-resource-busy and, throwing before any mutation, leaves the
adapter state unchanged (the error result carries no state).  A
successful acquisition changes nothing but its own flag, after it the
same acquisition always fails, and no other state-machine operation ever
clears either flag. -/
theorem claim_C4 (s : canusb_state) :
    (s.m_bus_manager_acquired = false →
        acquire_can_bus_manager s =
          Except.ok { s with m_bus_manager_acquired := true }) ∧
    (s.m_bus_manager_acquired = true →
        acquire_can_bus_manager s =
          Except.error hal_error.device_or_resource_busy) ∧
    (s.m_transceiver_acquired = false →
        acquire_can_transceiver s =
          Except.ok { s with m_transceiver_acquired := true }) ∧
    (s.m_transceiver_acquired = true →
        acquire_can_transceiver s =
          Except.error hal_error.device_or_resource_busy) ∧
    (∀ s', acquire_can_bus_manager s = Except.ok s' →
        s'.m_bus_manager_acquired = true ∧
        s'.m_transceiver_acquired = s.m_transceiver_acquired ∧
        s'.m_is_open = s.m_is_open ∧
        s'.m_current_baud_rate = s.m_current_baud_rate ∧
        acquire_can_bus_manager s' =
          Except.error hal_error.device_or_resource_busy) ∧
    (∀ s', acquire_can_transceiver s = Except.ok s' →
        s'.m_transceiver_acquired = true ∧
        s'.m_bus_manager_acquired = s.m_bus_manager_acquired ∧
        acquire_can_transceiver s' =
          Except.error hal_error.device_or_resource_busy) ∧
    (∀ hz s' w, driver_baud_rate s hz = Except.ok (s', w) →
        s'.m_bus_manager_acquired = s.m_bus_manager_acquired ∧
        s'.m_transceiver_acquired = s.m_transceiver_acquired) ∧
    ((driver_bus_on s).1.m_bus_manager_acquired = s.m_bus_manager_acquired ∧
     (driver_bus_on s).1.m_transceiver_acquired =
       s.m_transceiver_acquired) := by
  refine ⟨?_, ?_, ?_, ?_, ?_, ?_, ?_, ?_⟩
  · intro h
    simp [acquire_can_bus_manager, h]
  · intro h
    simp [acquire_can_bus_manager, h]
  · intro h
    simp [acquire_can_transceiver, h]
  · intro h
    simp [acquire_can_transceiver, h]
  · intro s' h
    simp only [acquire_can_bus_manager] at h
    split_ifs at h with hb
    all_goals first
      | exact Except.noConfusion h
      | (simp only [Except.ok.injEq] at h
         subst h
         simp [acquire_can_bus_manager])
  · intro s' h
    simp only [acquire_can_transceiver] at h
    split_ifs at h with hb
    all_goals first
      | exact Except.noConfusion h
      | (simp only [Except.ok.injEq] at h
         subst h
         simp [acquire_can_transceiver])
  · intro hz s' w h
    simp only [driver_baud_rate] at h
    split_ifs at h with ho hc
    all_goals first
      | exact Except.noConfusion h
      | (simp only [Except.ok.injEq, Prod.mk.injEq] at h
         obtain ⟨hs, -⟩ := h
         subst hs
         simp)
  · by_cases h : s.m_is_open <;> simp [driver_bus_on, h]

/-- Claim C4 witness: on a fresh adapter the first bus-manager
acquisition succeeds setting the flag, the second fails busy; likewise
for the transceiver. -/
theorem claim_C4_witness :
    acquire_can_bus_manager ⟨false, false, false, 125000⟩ =
      Except.ok ⟨true, false, false, 125000⟩ ∧
    acquire_can_bus_manager ⟨true, false, false, 125000⟩ =
      Except.error hal_error.device_or_resource_busy ∧
    acquire_can_transceiver ⟨true, false, false, 125000⟩ =
      Except.ok ⟨true, true, false, 125000⟩ ∧
    acquire_can_transceiver ⟨true, true, false, 125000⟩ =
      Except.error hal_error.device_or_resource_busy :=
  ⟨(claim_C4 ⟨false, false, false, 125000⟩).1 rfl,
   (claim_C4 ⟨true, false, false, 125000⟩).2.1 rfl,
   (claim_C4 ⟨true, false, false, 125000⟩).2.2.1 rfl,
   (claim_C4 ⟨true, true, false, 125000⟩).2.2.2.1 rfl⟩

/-- Claim C7: `driver_bus_on` idempotence.  Already open: no bytes
written, state unchanged.  Closed: writes exactly `O`, `\r` (79, 13) and
sets the open flag.  Hence a second consecutive call reaches the same
final state and writes nothing more, so two calls emit the same transport
bytes as one. -/
theorem claim_C7 (s : canusb_state) :
    (s.m_is_open = true → driver_bus_on s = (s, [])) ∧
    (s.m_is_open = false →
        driver_bus_on s = ({ s with m_is_open := true }, [79, 13])) ∧
    (driver_bus_on (driver_bus_on s).1).1 = (driver_bus_on s).1 ∧
    (driver_bus_on (driver_bus_on s).1).2 = [] ∧
    (driver_bus_on s).2 ++ (driver_bus_on (driver_bus_on s).1).2 =
      (driver_bus_on s).2 := by
  by_cases h : s.m_is_open <;> simp [driver_bus_on, h]

/-- Claim C7 witness: opening from the closed initial state writes
`O\r`; opening again writes nothing and keeps the state. -/
theorem claim_C7_witness :
    driver_bus_on ⟨false, false, false, 125000⟩ =
      (⟨false, false, true, 125000⟩, [79, 13]) ∧
    driver_bus_on ⟨false, false, true, 125000⟩ =
      (⟨false, false, true, 125000⟩, []) :=
  ⟨(claim_C7 ⟨false, false, false, 125000⟩).2.1 rfl,
   (claim_C7 ⟨false, false, true, 125000⟩).1 rfl⟩

/-- Claim C8: `driver_send` state gating.  With the bus closed it signals
operation-not-supported and writes nothing (the error result carries no
bytes; the source throws before the write); with the bus open it writes
exactly the codec encoding of the message in one transport write. -/
theorem claim_C8 (s : canusb_state) (m : can_message) :
    (s.m_is_open = false →
        driver_send s m = Except.error hal_error.operation_not_supported) ∧
    (s.m_is_open = true →
        driver_send s m = Except.ok (can_message_to_command_buffer m)) := by
  constructor <;> intro h <;> simp [driver_send, h]

/-- Claim C8 witness: sending a standard data frame (id 1, one payload
byte 0xAB) fails while closed and writes `t00111AB\r` while open. -/
theorem claim_C8_witness :
    driver_send ⟨false, false, false, 125000⟩
        ⟨1, false, false, 1, 171 :: List.replicate 7 0⟩ =
      Except.error hal_error.operation_not_supported ∧
    driver_send ⟨false, false, true, 125000⟩
        ⟨1, false, false, 1, 171 :: List.replicate 7 0⟩ =
      Except.ok [116, 48, 48, 49, 49, 65, 66, 13] :=
  ⟨(claim_C8 ⟨false, false, false, 125000⟩
      ⟨1, false, false, 1, 171 :: List.replicate 7 0⟩).1 rfl,
   (claim_C8 ⟨false, false, true, 125000⟩
      ⟨1, false, false, 1, 171 :: List.replicate 7 0⟩).2 rfl⟩

/-- Claim C5: wraparound-safe cursor delta.  The per-pass new-byte count
equals `(current - last + M) mod M` in integer arithmetic; for
`last = M-2`, `current = 1` (capacity at least 4) it is exactly 3 and the
bytes are read, in order, from ring indices `M-2`, `M-1`, `0`; and when
the delta is 0 the pass returns the state unchanged without reading any
ring byte. -/
theorem claim_C5 (M last current : Nat) (hl : last < M) (_hc : current < M) :
    ((bytes_received M last current : Int) =
        ((current : Int) - (last : Int) + (M : Int)) % (M : Int)) ∧
    (4 ≤ M → bytes_received M (M - 2) 1 = 3 ∧
        new_byte_indices M (M - 2) 3 = [M - 2, M - 1, 0]) ∧
    (∀ serial st, serial.length = M →
        st.m_last_serial_cursor = current →
        process_incoming_serial_data serial current st = st) := by
  refine ⟨?_, ?_, ?_⟩
  · unfold bytes_received
    have hle : last ≤ current + M := by omega
    push_cast [Nat.cast_sub hle]
    have harith : (current : Int) + M - last = current - last + M := by ring
    rw [harith]
  · intro hM
    constructor
    · unfold bytes_received
      have h1 : 1 + M - (M - 2) = 3 := by omega
      rw [h1]
      exact Nat.mod_eq_of_lt (by omega)
    · unfold new_byte_indices
      have hr : List.range 3 = [0, 1, 2] := by decide
      rw [hr]
      simp only [List.map_cons, List.map_nil]
      have e0 : M - 2 + 0 = M - 2 := by omega
      have e1 : M - 2 + 1 = M - 1 := by omega
      have e2 : M - 2 + 2 = M := by omega
      rw [e0, e1, e2, Nat.mod_self,
        Nat.mod_eq_of_lt (show M - 2 < M by omega),
        Nat.mod_eq_of_lt (show M - 1 < M by omega)]
  · intro serial st hserial hst
    unfold process_incoming_serial_data
    have hz : bytes_received serial.length st.m_last_serial_cursor current
        = 0 := by
      unfold bytes_received
      rw [hst, hserial]
      have hm : current + M - current = M := by omega
      rw [hm, Nat.mod_self]
    simp [hz]

/-- Claim C5 witness: capacity 8, last cursor 6, current cursor 1 — delta
3, indices 6, 7, 0; and a pass with equal cursors leaves the state
untouched. -/
theorem claim_C5_witness :
    bytes_received 8 6 1 = 3 ∧
    new_byte_indices 8 6 3 = [6, 7, 0] ∧
    process_incoming_serial_data (List.replicate 8 0) 1
        ⟨1, [], ⟨[⟨0, false, false, 0, List.replicate 8 0⟩], 0⟩⟩ =
      ⟨1, [], ⟨[⟨0, false, false, 0, List.replicate 8 0⟩], 0⟩⟩ :=
  ⟨((claim_C5 8 6 1 (by decide) (by decide)).2.1 (by decide)).1,
   ((claim_C5 8 6 1 (by decide) (by decide)).2.1 (by decide)).2,
   (claim_C5 8 6 1 (by decide) (by decide)).2.2 (List.replicate 8 0)
     ⟨1, [], ⟨[⟨0, false, false, 0, List.replicate 8 0⟩], 0⟩⟩
     (by decide) rfl⟩

/-- Claim C6: parser terminator step.  Processing a carriage-return byte
(13) attempts a decode of the assembly buffer accumulated so far (the
terminator itself appended first, unless the fill already reached
capacity minus one): on success the decoded message is pushed into the
ring buffer, on failure the ring is untouched — no error escapes, the
step's result type has no error channel — and in both cases the assembly
fill is reset to zero before the next byte. -/
theorem claim_C6 (st : canusb_transceiver_state) (buf : List Nat)
    (hbuf : buf = if st.m_parse_buffer.length < 31
        then st.m_parse_buffer ++ [13] else st.m_parse_buffer) :
    (process_byte st 13).m_parse_buffer = [] ∧
    (∀ m, string_to_can_message buf = some m →
        (process_byte st 13).m_circular_buffer =
          st.m_circular_buffer.push m) ∧
    (string_to_can_message buf = none →
        (process_byte st 13).m_circular_buffer = st.m_circular_buffer) ∧
    (process_byte st 13).m_last_serial_cursor = st.m_last_serial_cursor := by
  subst hbuf
  refine ⟨?_, ?_, ?_, ?_⟩
  · simp [process_byte]
  · intro m hm
    simp [process_byte, hm]
  · intro hm
    simp [process_byte, hm]
  · simp [process_byte]

/-- Claim C6 witness: the assembly buffer holds `t0010`; the terminator
completes the frame `t0010CR`, which decodes to the standard message with
id 1 and length 0, pushed into the ring; the fill resets to zero. -/
theorem claim_C6_witness :
    (process_byte
        ⟨0, [116, 48, 48, 49, 48],
         ⟨[⟨0, false, false, 0, List.replicate 8 0⟩], 0⟩⟩ 13).m_parse_buffer
      = [] ∧
    (process_byte
        ⟨0, [116, 48, 48, 49, 48],
         ⟨[⟨0, false, false, 0, List.replicate 8 0⟩], 0⟩⟩
        13).m_circular_buffer =
      circular_buffer.push ⟨[⟨0, false, false, 0, List.replicate 8 0⟩], 0⟩
        ⟨1, false, false, 0, List.replicate 8 0⟩ :=
  ⟨(claim_C6 ⟨0, [116, 48, 48, 49, 48],
      ⟨[⟨0, false, false, 0, List.replicate 8 0⟩], 0⟩⟩ _ rfl).1,
   (claim_C6 ⟨0, [116, 48, 48, 49, 48],
      ⟨[⟨0, false, false, 0, List.replicate 8 0⟩], 0⟩⟩ _ rfl).2.1
     ⟨1, false, false, 0, List.replicate 8 0⟩ (by decide)⟩
